import Mathlib

/-!
Verification of the animation/skeleton conversion pipeline of `vmesh`
(`src/vmesh/src/char_anim.rs`).

Shallow embedding conventions:

* `f32` values are modelled as exact rationals (`ℚ`); the rounding of
  32-bit float arithmetic is outside the model.
* Rust casts `as i32` / `as i16` on floats truncate toward zero; the `i16`
  cast is modelled together with its saturating behaviour (`as_i16`),
  because claim C10 is about overflow.  The `i32` time cast is modelled as
  plain truncation (`ratTrunc`), animation times being far below the `i32`
  range.
* Fallible or panicking code paths (`expect`, out-of-range indexing,
  `assert!`) are modelled with `Option`: `none` is a panic.
* The gltf reader layer (an external crate) is modelled by its results:
  a `Channel` carries the data the reader yields (`read_inputs`,
  `read_outputs`, the interpolation mode); a `Skin` carries the joint list
  and the optional inverse-bind-matrix stream.
* A 4x4 inverse bind matrix enters `convert_bone` only through glam's
  `to_scale_rotation_translation`; the matrix is therefore represented by
  that decomposition (`Mat4SRT`).
-/

/-- Truncation of a rational toward zero, the semantics of a Rust
`as i32` / `as i16` cast applied to an in-range float value.  For a
rational in lowest terms this is the truncating integer division of the
numerator by the denominator. -/
def ratTrunc (q : ℚ) : Int := Int.tdiv q.num q.den

/-- Model of `gltf_time_to_rfa_time` (char_anim.rs lines 10-12):
`(time_sec * 30.0f32 * 160.0f32) as i32`. -/
def gltf_time_to_rfa_time (time_sec : ℚ) : Int := ratTrunc (time_sec * 30 * 160)

/-- Model of the Rust cast `as i16` on a float: truncation toward zero,
saturating at the `i16` bounds. -/
def as_i16 (x : ℚ) : Int := max (-32768) (min 32767 (ratTrunc x))

/-- Quaternion as the gltf reader yields it: a `[f32; 4]` array
`[x, y, z, w]`. -/
structure Quat where
  x : ℚ
  y : ℚ
  z : ℚ
  w : ℚ
  deriving DecidableEq, Inhabited

/-- Quantized quaternion, a `[i16; 4]` array. -/
structure Quat16 where
  x : Int
  y : Int
  z : Int
  w : Int
  deriving DecidableEq, Inhabited

/-- Vector as the gltf reader yields it: a `[f32; 3]` array. -/
structure Vec3 where
  x : ℚ
  y : ℚ
  z : ℚ
  deriving DecidableEq, Inhabited

/-- Model of `make_short_quat` (char_anim.rs lines 14-16):
`quat.map(|x| (x * 16383.0f32) as i16)`. -/
def make_short_quat (quat : Quat) : Quat16 :=
  ⟨as_i16 (quat.x * 16383), as_i16 (quat.y * 16383),
   as_i16 (quat.z * 16383), as_i16 (quat.w * 16383)⟩

/-- Modelled from the spec: the Coordinate/Quaternion Adapter (section 4.1)
for quaternions, `gltf_to_rf_quat`, defined at the crate root, which is not
among the sources; a fixed axis permutation / sign flip taking the gltf
convention to the engine convention. -/
def gltf_to_rf_quat (q : Quat) : Quat := ⟨q.x, -q.z, q.y, q.w⟩

/-- Modelled from the spec: the Coordinate/Quaternion Adapter (section 4.1)
for vectors, `gltf_to_rf_vec`, defined at the crate root, which is not
among the sources; the same fixed axis permutation / sign flip. -/
def gltf_to_rf_vec (v : Vec3) : Vec3 := ⟨v.x, -v.z, v.y⟩

/-- Modelled from the spec: `quat_to_array` at the crate root turns a glam
quaternion into its `[x, y, z, w]` array; our `Quat` already is that array,
so the function is the identity. -/
def quat_to_array (q : Quat) : Quat := q

-- ------------------------------------------------------------------
-- Helper lemmas about truncation
-- ------------------------------------------------------------------

theorem ratTrunc_eq_floor {q : ℚ} (h : 0 ≤ q) : ratTrunc q = ⌊q⌋ := by
  rw [Rat.floor_def, ratTrunc]
  exact Int.tdiv_eq_ediv (Rat.num_nonneg.mpr h) (Int.natCast_nonneg _)

theorem ratTrunc_neg (q : ℚ) : ratTrunc (-q) = -ratTrunc q := by
  simp [ratTrunc, Rat.neg_num, Rat.neg_den, Int.neg_tdiv]

theorem ratTrunc_nonneg {q : ℚ} (h : 0 ≤ q) : 0 ≤ ratTrunc q := by
  rw [ratTrunc_eq_floor h]
  exact Int.floor_nonneg.mpr h

theorem ratTrunc_le_natCast {q : ℚ} {n : ℕ} (h : q ≤ n) : ratTrunc q ≤ n := by
  rcases le_or_lt 0 q with hq | hq
  · rw [ratTrunc_eq_floor hq]
    calc ⌊q⌋ ≤ ⌊(n : ℚ)⌋ := Int.floor_le_floor h
    _ = n := Int.floor_natCast n
  · have h1 : ratTrunc q = -ratTrunc (-q) := by rw [ratTrunc_neg, neg_neg]
    have h2 : 0 ≤ ratTrunc (-q) := ratTrunc_nonneg (by linarith)
    omega

theorem ratTrunc_bound {q : ℚ} {n : ℕ} (h1 : -(n : ℚ) ≤ q) (h2 : q ≤ n) :
    -(n : Int) ≤ ratTrunc q ∧ ratTrunc q ≤ n := by
  constructor
  · have h3 : ratTrunc (-q) ≤ (n : Int) := ratTrunc_le_natCast (by linarith)
    have h4 : ratTrunc (-q) = -ratTrunc q := ratTrunc_neg q
    omega
  · exact ratTrunc_le_natCast h2

-- ------------------------------------------------------------------
-- C9 and C10
-- ------------------------------------------------------------------

/-- C9: the time quantizer equals truncation toward zero of
`seconds * 30 * 160` (4800 ticks per second); `quantize_time 0 = 0`,
`quantize_time 1 = 4800`, and the result is monotonic non-decreasing on
nonnegative seconds. -/
theorem gltf_time_to_rfa_time_spec :
    (∀ t : ℚ, gltf_time_to_rfa_time t = ratTrunc (t * 4800)) ∧
    gltf_time_to_rfa_time 0 = 0 ∧
    gltf_time_to_rfa_time 1 = 4800 ∧
    (∀ s t : ℚ, 0 ≤ s → s ≤ t →
      gltf_time_to_rfa_time s ≤ gltf_time_to_rfa_time t) := by
  refine ⟨?_, ?_, ?_, ?_⟩
  · intro t
    rw [gltf_time_to_rfa_time, mul_assoc]
    norm_num
  · with_unfolding_all decide
  · with_unfolding_all decide
  · intro s t hs hst
    have h0t : (0 : ℚ) ≤ t := le_trans hs hst
    unfold gltf_time_to_rfa_time
    rw [ratTrunc_eq_floor (by positivity), ratTrunc_eq_floor (by positivity)]
    exact Int.floor_le_floor (by nlinarith)

/-- Witness for C9 at the concrete seconds 1 and 2. -/
theorem gltf_time_to_rfa_time_spec_witness :
    gltf_time_to_rfa_time 2 = ratTrunc (2 * 4800) ∧
    gltf_time_to_rfa_time 1 ≤ gltf_time_to_rfa_time 2 :=
  ⟨gltf_time_to_rfa_time_spec.1 2,
   gltf_time_to_rfa_time_spec.2.2.2 1 2 (by with_unfolding_all decide)
     (by with_unfolding_all decide)⟩

/-- C10: the rotation quantizer scales each quaternion component by 16383
and truncates; on components in `[-1, 1]` no clamping occurs (the result
equals the plain truncation) and the result lies in `[-16383, 16383]`;
`make_short_quat ⟨1,0,0,0⟩ = ⟨16383,0,0,0⟩`. -/
theorem make_short_quat_spec :
    (∀ c : ℚ, -1 ≤ c → c ≤ 1 →
      (make_short_quat ⟨c, 0, 0, 0⟩).x = ratTrunc (c * 16383) ∧
      -16383 ≤ (make_short_quat ⟨c, 0, 0, 0⟩).x ∧
      (make_short_quat ⟨c, 0, 0, 0⟩).x ≤ 16383) ∧
    make_short_quat ⟨1, 0, 0, 0⟩ = ⟨16383, 0, 0, 0⟩ := by
  constructor
  · intro c h1 h2
    have hb : -((16383 : ℕ) : ℚ) ≤ c * 16383 ∧ c * 16383 ≤ ((16383 : ℕ) : ℚ) := by
      constructor <;> · push_cast; nlinarith
    have hr := ratTrunc_bound hb.1 hb.2
    have hx : (make_short_quat ⟨c, 0, 0, 0⟩).x = as_i16 (c * 16383) := rfl
    rw [hx, as_i16]
    refine ⟨?_, ?_, ?_⟩ <;> omega
  · simp only [make_short_quat, as_i16, ratTrunc, one_mul, zero_mul]
    norm_num [Rat.num_ofNat, Rat.den_ofNat, Int.tdiv_one, Int.zero_tdiv,
      Quat16.mk.injEq]

/-- Witness for C10 at the concrete component 1/2. -/
theorem make_short_quat_spec_witness :
    (make_short_quat ⟨1/2, 0, 0, 0⟩).x = ratTrunc (1/2 * 16383) ∧
    -16383 ≤ (make_short_quat ⟨1/2, 0, 0, 0⟩).x ∧
    (make_short_quat ⟨1/2, 0, 0, 0⟩).x ≤ 16383 :=
  make_short_quat_spec.1 (1/2) (by with_unfolding_all decide)
    (by with_unfolding_all decide)

-- ------------------------------------------------------------------
-- Animation channels and keyframe extraction
-- ------------------------------------------------------------------

/-- Interpolation mode of a gltf animation sampler. -/
inductive Interpolation where
  | step
  | linear
  | cubicSpline
  deriving DecidableEq, Inhabited

/-- Output samples of a gltf animation channel, as `read_outputs` yields
them: homogeneously rotations or translations. -/
inductive ReadOutputs where
  | rotations (rs : List Quat)
  | translations (ts : List Vec3)
  deriving DecidableEq, Inhabited

/-- Model of a gltf animation channel, carrying the data the external
reader yields for it: the target node index, the sampler interpolation,
and the results of `read_inputs` / `read_outputs` (`none` models a reader
failure, which the source drops via `filter_map`). -/
structure Channel where
  target_node : Nat
  interpolation : Interpolation
  inputs : Option (List ℚ)
  outputs : Option ReadOutputs
  deriving DecidableEq, Inhabited

/-- Model of `get_node_anim_channels` (char_anim.rs lines 18-22): the
channels of the animation whose target node is the given node. -/
def get_node_anim_channels (node_index : Nat) (channels : List Channel) : List Channel :=
  channels.filter (fun c => c.target_node == node_index)

/-- Model of the first `filter_map` stage of the extractors (lines 26-32 /
73-79): keep a channel only when both `read_inputs` and `read_outputs`
succeed, pairing them with the interpolation mode. -/
def read_channel (c : Channel) : Option (List ℚ × ReadOutputs × Interpolation) :=
  c.inputs.bind (fun ins => c.outputs.map (fun outs => (ins, outs, c.interpolation)))

/-- Model of the second `filter_map` stage of `convert_rotation_keys`
(lines 33-39): keep only rotation outputs. -/
def rotation_outputs :
    List ℚ × ReadOutputs × Interpolation → Option (List ℚ × List Quat × Interpolation)
  | (ins, ReadOutputs.rotations rs, interp) => some (ins, rs, interp)
  | _ => none

/-- Model of the second `filter_map` stage of `convert_translation_keys`
(lines 80-86): keep only translation outputs. -/
def translation_outputs :
    List ℚ × ReadOutputs × Interpolation → Option (List ℚ × List Vec3 × Interpolation)
  | (ins, ReadOutputs.translations ts, interp) => some (ins, ts, interp)
  | _ => none

/-- Test used to state claim C8: does an output stream consist of
rotations? -/
def is_rotation_output : Option ReadOutputs → Bool
  | some (ReadOutputs.rotations _) => true
  | _ => false

/-- Test used to state claim C8: does an output stream consist of
translations? -/
def is_translation_output : Option ReadOutputs → Bool
  | some (ReadOutputs.translations _) => true
  | _ => false

/-- Model of `.chunks(3).map(|s| (s[0], s[1], s[2]))` (lines 45-50 /
90-95): Rust `chunks` yields a final short chunk when the length is not a
multiple of 3, and indexing it at 1 or 2 panics; the panic is modelled by
`none`. -/
def chunks3 {α : Type} : List α → Option (List (α × α × α))
  | [] => some []
  | a :: b :: c :: rest => (chunks3 rest).map (fun l => (a, b, c) :: l)
  | _ => none

namespace rfa

/-- Model of `rfa::RotationKey`. -/
structure RotationKey where
  time : Int
  rotation : Quat16
  ease_in : Int
  ease_out : Int
  deriving DecidableEq, Inhabited

/-- Model of `rfa::TranslationKey`. -/
structure TranslationKey where
  time : Int
  in_tangent : Vec3
  translation : Vec3
  out_tangent : Vec3
  deriving DecidableEq, Inhabited

/-- Model of `rfa::Bone`. -/
structure Bone where
  weight : ℚ
  rotation_keys : List RotationKey
  translation_keys : List TranslationKey
  deriving DecidableEq, Inhabited

end rfa

/-- Model of `convert_rotation_keys` (char_anim.rs lines 24-69).  The Rust
iterator chain takes the first channel of the animation that targets the
node and carries readable rotation outputs, quantizes the
coordinate-converted quaternions, groups them in triplets for cubic-spline
interpolation (keeping the middle element) or replicates each value into a
degenerate triplet otherwise, and zips with the quantized timestamps;
`.next()` evaluates the closure only on that first channel, and
`unwrap_or_default` yields `[]` when there is none.  `none` models a panic
inside the closure. -/
def convert_rotation_keys (node_index : Nat) (channels : List Channel) :
    Option (List rfa.RotationKey) :=
  match (((get_node_anim_channels node_index channels).filterMap read_channel).filterMap
      rotation_outputs).head? with
  | none => some []
  | some (ins, rs, interp) =>
    let rotation_quads := rs.map (fun r => make_short_quat (gltf_to_rf_quat r))
    let chunked := if interp = Interpolation.cubicSpline then chunks3 rotation_quads
      else some (rotation_quads.map (fun r => (r, r, r)))
    chunked.map (fun cs =>
      ((ins.map gltf_time_to_rfa_time).zip cs).map
        (fun p => { time := p.1, rotation := p.2.2.1, ease_in := 0, ease_out := 0 }))

/-- Model of `convert_translation_keys` (char_anim.rs lines 71-117).  Same
structure as the rotation extractor, except that values stay floating
point and the produced key stores the middle element of each triplet in
all three of `in_tangent`, `translation`, `out_tangent` (the source
comment: "ignore cubic spline tangents for now"). -/
def convert_translation_keys (node_index : Nat) (channels : List Channel) :
    Option (List rfa.TranslationKey) :=
  match (((get_node_anim_channels node_index channels).filterMap read_channel).filterMap
      translation_outputs).head? with
  | none => some []
  | some (ins, ts, interp) =>
    let rf_translations := ts.map gltf_to_rf_vec
    let chunked := if interp = Interpolation.cubicSpline then chunks3 rf_translations
      else some (rf_translations.map (fun t => (t, t, t)))
    chunked.map (fun cs =>
      ((ins.map gltf_time_to_rfa_time).zip cs).map
        (fun p => { time := p.1, in_tangent := p.2.2.1, translation := p.2.2.1,
                    out_tangent := p.2.2.1 }))

-- ------------------------------------------------------------------
-- C4: cubic-spline rotation extraction keeps the middle sample
-- ------------------------------------------------------------------

/-- C4: for a CUBIC_SPLINE rotation channel with 2 logical keyframes given
as 6 raw samples (in-tangent, value, out-tangent per timestamp),
`convert_rotation_keys` produces exactly 2 keys, each key rotation being
the quantized, coordinate-converted middle (value) sample, never a
tangent, with `ease_in = ease_out = 0`. -/
theorem convert_rotation_keys_cubic_spec
    (node_index : Nat) (rest : List Channel) (c : Channel)
    (t0 t1 : ℚ) (s0 s1 s2 s3 s4 s5 : Quat)
    (htarget : c.target_node = node_index)
    (hinterp : c.interpolation = Interpolation.cubicSpline)
    (hins : c.inputs = some [t0, t1])
    (houts : c.outputs = some (ReadOutputs.rotations [s0, s1, s2, s3, s4, s5])) :
    convert_rotation_keys node_index (c :: rest) =
      some [⟨gltf_time_to_rfa_time t0, make_short_quat (gltf_to_rf_quat s1), 0, 0⟩,
            ⟨gltf_time_to_rfa_time t1, make_short_quat (gltf_to_rf_quat s4), 0, 0⟩] := by
  obtain ⟨tn, interp, cins, couts⟩ := c
  simp only at htarget hinterp hins houts
  subst htarget hinterp hins houts
  simp [convert_rotation_keys, get_node_anim_channels, read_channel,
    rotation_outputs, chunks3]

/-- Witness for C4 on a concrete cubic-spline channel. -/
theorem convert_rotation_keys_cubic_spec_witness :
    convert_rotation_keys 0
        [⟨0, Interpolation.cubicSpline, some [0, 1],
          some (ReadOutputs.rotations
            [⟨0, 0, 0, 0⟩, ⟨1, 0, 0, 0⟩, ⟨0, 0, 0, 0⟩,
             ⟨0, 0, 0, 0⟩, ⟨0, 0, 0, 1⟩, ⟨0, 0, 0, 0⟩])⟩] =
      some [⟨gltf_time_to_rfa_time 0, make_short_quat (gltf_to_rf_quat ⟨1, 0, 0, 0⟩), 0, 0⟩,
            ⟨gltf_time_to_rfa_time 1, make_short_quat (gltf_to_rf_quat ⟨0, 0, 0, 1⟩), 0, 0⟩] :=
  convert_rotation_keys_cubic_spec 0 [] _ 0 1 _ _ _ _ _ _ rfl rfl rfl rfl

-- ------------------------------------------------------------------
-- C2: translation extraction discards the spline tangents
-- ------------------------------------------------------------------

/-- C2 is refuted: for a CUBIC_SPLINE translation channel with one logical
keyframe whose raw triplet is (in-tangent (1,0,0), value (2,0,0),
out-tangent (3,0,0)), the produced key stores the converted middle value
in all three fields, so `in_tangent` is not the converted in-tangent
sample, contradicting the claim that tangents are retained. -/
theorem convert_translation_keys_tangent_counterexample :
    convert_translation_keys 0
        [⟨0, Interpolation.cubicSpline, some [0],
          some (ReadOutputs.translations [⟨1, 0, 0⟩, ⟨2, 0, 0⟩, ⟨3, 0, 0⟩])⟩] =
      some [⟨gltf_time_to_rfa_time 0, gltf_to_rf_vec ⟨2, 0, 0⟩, gltf_to_rf_vec ⟨2, 0, 0⟩,
             gltf_to_rf_vec ⟨2, 0, 0⟩⟩] ∧
    gltf_to_rf_vec ⟨2, 0, 0⟩ ≠ gltf_to_rf_vec ⟨1, 0, 0⟩ ∧
    gltf_to_rf_vec ⟨2, 0, 0⟩ ≠ gltf_to_rf_vec ⟨3, 0, 0⟩ := by
  refine ⟨?_, by with_unfolding_all decide, by with_unfolding_all decide⟩
  with_unfolding_all decide

/-- C2 (amended): for a CUBIC_SPLINE translation channel the tangent
samples are discarded: every produced key stores the coordinate-converted
middle (value) sample in `in_tangent`, `translation` and `out_tangent`
alike (the source comment: "ignore cubic spline tangents for now"); in
general, for any interpolation, every produced translation key has
`in_tangent = translation = out_tangent`. -/
theorem convert_translation_keys_spec :
    (∀ (node_index : Nat) (rest : List Channel) (c : Channel) (t0 t1 : ℚ)
        (s0 s1 s2 s3 s4 s5 : Vec3),
      c.target_node = node_index →
      c.interpolation = Interpolation.cubicSpline →
      c.inputs = some [t0, t1] →
      c.outputs = some (ReadOutputs.translations [s0, s1, s2, s3, s4, s5]) →
      convert_translation_keys node_index (c :: rest) =
        some [⟨gltf_time_to_rfa_time t0, gltf_to_rf_vec s1, gltf_to_rf_vec s1,
               gltf_to_rf_vec s1⟩,
              ⟨gltf_time_to_rfa_time t1, gltf_to_rf_vec s4, gltf_to_rf_vec s4,
               gltf_to_rf_vec s4⟩]) ∧
    (∀ (node_index : Nat) (channels : List Channel) (ks : List rfa.TranslationKey),
      convert_translation_keys node_index channels = some ks →
      ∀ k ∈ ks, k.in_tangent = k.translation ∧ k.out_tangent = k.translation) := by
  constructor
  · intro node_index rest c t0 t1 s0 s1 s2 s3 s4 s5 htarget hinterp hins houts
    obtain ⟨tn, interp, cins, couts⟩ := c
    simp only at htarget hinterp hins houts
    subst htarget hinterp hins houts
    simp [convert_translation_keys, get_node_anim_channels, read_channel,
      translation_outputs, chunks3]
  · intro node_index channels ks hconv k hk
    simp only [convert_translation_keys] at hconv
    split at hconv
    · cases hconv
      cases hk
    · rename_i ins ts interp heq
      rcases Option.map_eq_some'.mp hconv with ⟨cs, hcs, hks⟩
      subst hks
      rcases List.mem_map.mp hk with ⟨p, hp_mem, hp⟩
      subst hp
      exact ⟨rfl, rfl⟩

/-- Witness for C2 on a concrete cubic-spline translation channel with two
logical keyframes. -/
theorem convert_translation_keys_spec_witness :
    convert_translation_keys 0
        [⟨0, Interpolation.cubicSpline, some [0, 1],
          some (ReadOutputs.translations
            [⟨1, 1, 1⟩, ⟨2, 2, 2⟩, ⟨3, 3, 3⟩, ⟨4, 4, 4⟩, ⟨5, 5, 5⟩, ⟨6, 6, 6⟩])⟩] =
      some [⟨gltf_time_to_rfa_time 0, gltf_to_rf_vec ⟨2, 2, 2⟩, gltf_to_rf_vec ⟨2, 2, 2⟩,
             gltf_to_rf_vec ⟨2, 2, 2⟩⟩,
            ⟨gltf_time_to_rfa_time 1, gltf_to_rf_vec ⟨5, 5, 5⟩, gltf_to_rf_vec ⟨5, 5, 5⟩,
             gltf_to_rf_vec ⟨5, 5, 5⟩⟩] :=
  convert_translation_keys_spec.1 0 [] _ 0 1 _ _ _ _ _ _ rfl rfl rfl rfl

-- ------------------------------------------------------------------
-- C7: cubic-spline extraction panics unless the sample count is 3k
-- ------------------------------------------------------------------

theorem chunks3_eq_none_iff {α : Type} :
    ∀ l : List α, chunks3 l = none ↔ l.length % 3 ≠ 0
  | [] => by simp [chunks3]
  | [a] => by simp [chunks3]
  | [a, b] => by simp [chunks3]
  | a :: b :: c :: rest => by
    have ih := chunks3_eq_none_iff rest
    simp only [chunks3, Option.map_eq_none', List.length_cons, ih]
    omega

/-- C7: for a CUBIC_SPLINE channel, extraction panics (modelled `none`)
exactly when the output sample count is not a multiple of 3, because the
final short chunk is still indexed at positions 1 and 2; it is panic-free
iff the count is a multiple of 3.  Stated for the first matching channel
of the animation, the only one the lazy iterator ever evaluates. -/
theorem cubic_spline_partial_chunk_spec
    (node_index : Nat) (rest : List Channel) (c : Channel) (ins : List ℚ)
    (htarget : c.target_node = node_index)
    (hinterp : c.interpolation = Interpolation.cubicSpline)
    (hins : c.inputs = some ins) :
    (∀ rs, c.outputs = some (ReadOutputs.rotations rs) →
      (convert_rotation_keys node_index (c :: rest) = none ↔ rs.length % 3 ≠ 0)) ∧
    (∀ ts, c.outputs = some (ReadOutputs.translations ts) →
      (convert_translation_keys node_index (c :: rest) = none ↔ ts.length % 3 ≠ 0)) := by
  obtain ⟨tn, interp, cins, couts⟩ := c
  simp only at htarget hinterp hins
  subst htarget hinterp hins
  constructor
  · intro rs houts
    simp only at houts
    subst houts
    simp [convert_rotation_keys, get_node_anim_channels, read_channel,
      rotation_outputs, Option.map_eq_none', chunks3_eq_none_iff]
  · intro ts houts
    simp only at houts
    subst houts
    simp [convert_translation_keys, get_node_anim_channels, read_channel,
      translation_outputs, Option.map_eq_none', chunks3_eq_none_iff]

/-- Witness for C7: a cubic-spline rotation channel with 1 raw sample and
a cubic-spline translation channel with 2 raw samples both panic. -/
theorem cubic_spline_partial_chunk_spec_witness :
    convert_rotation_keys 0
        [⟨0, Interpolation.cubicSpline, some [0],
          some (ReadOutputs.rotations [⟨0, 0, 0, 1⟩])⟩] = none ∧
    convert_translation_keys 0
        [⟨0, Interpolation.cubicSpline, some [0],
          some (ReadOutputs.translations [⟨1, 2, 3⟩, ⟨4, 5, 6⟩])⟩] = none :=
  ⟨((cubic_spline_partial_chunk_spec 0 [] _ [0] rfl rfl rfl).1
      [⟨0, 0, 0, 1⟩] rfl).mpr (by decide),
   ((cubic_spline_partial_chunk_spec 0 [] _ [0] rfl rfl rfl).2
      [⟨1, 2, 3⟩, ⟨4, 5, 6⟩] rfl).mpr (by decide)⟩

-- ------------------------------------------------------------------
-- C8: a joint with no matching channel yields empty keys, not an error
-- ------------------------------------------------------------------

/-- C8: when no channel of the animation targets the joint with outputs of
the relevant kind, the corresponding extractor returns the empty key
sequence and does not fail. -/
theorem static_joint_empty_keys_spec (node_index : Nat) (channels : List Channel) :
    ((∀ c ∈ channels, c.target_node = node_index →
        is_rotation_output c.outputs = false) →
      convert_rotation_keys node_index channels = some []) ∧
    ((∀ c ∈ channels, c.target_node = node_index →
        is_translation_output c.outputs = false) →
      convert_translation_keys node_index channels = some []) := by
  constructor
  · intro h
    have hnil : ((get_node_anim_channels node_index channels).filterMap
        read_channel).filterMap rotation_outputs = [] := by
      rw [List.filterMap_eq_nil_iff]
      intro x hx
      rcases List.mem_filterMap.mp hx with ⟨c, hc_mem, hc_read⟩
      rw [get_node_anim_channels, List.mem_filter] at hc_mem
      have htgt : c.target_node = node_index := by simpa using hc_mem.2
      have hro := h c hc_mem.1 htgt
      rcases hcins : c.inputs with _ | ins
      · rw [read_channel, hcins] at hc_read
        simp at hc_read
      rcases hcouts : c.outputs with _ | outs
      · rw [read_channel, hcins, hcouts] at hc_read
        simp at hc_read
      rw [read_channel, hcins, hcouts] at hc_read
      rw [hcouts] at hro
      cases outs with
      | rotations rs => simp [is_rotation_output] at hro
      | translations ts =>
        have hx_eq : (ins, ReadOutputs.translations ts, c.interpolation) = x :=
          Option.some.inj hc_read
        rw [← hx_eq]
        rfl
    rw [convert_rotation_keys, hnil]
    rfl
  · intro h
    have hnil : ((get_node_anim_channels node_index channels).filterMap
        read_channel).filterMap translation_outputs = [] := by
      rw [List.filterMap_eq_nil_iff]
      intro x hx
      rcases List.mem_filterMap.mp hx with ⟨c, hc_mem, hc_read⟩
      rw [get_node_anim_channels, List.mem_filter] at hc_mem
      have htgt : c.target_node = node_index := by simpa using hc_mem.2
      have hro := h c hc_mem.1 htgt
      rcases hcins : c.inputs with _ | ins
      · rw [read_channel, hcins] at hc_read
        simp at hc_read
      rcases hcouts : c.outputs with _ | outs
      · rw [read_channel, hcins, hcouts] at hc_read
        simp at hc_read
      rw [read_channel, hcins, hcouts] at hc_read
      rw [hcouts] at hro
      cases outs with
      | translations ts => simp [is_translation_output] at hro
      | rotations rs =>
        have hx_eq : (ins, ReadOutputs.rotations rs, c.interpolation) = x :=
          Option.some.inj hc_read
        rw [← hx_eq]
        rfl
    rw [convert_translation_keys, hnil]
    rfl

/-- Witness for C8: an animation whose only channel targets another node
leaves the queried joint with empty rotation and translation keys. -/
theorem static_joint_empty_keys_spec_witness :
    convert_rotation_keys 0
        [⟨1, Interpolation.linear, some [0], some (ReadOutputs.rotations [⟨0, 0, 0, 1⟩])⟩]
      = some [] ∧
    convert_translation_keys 0
        [⟨1, Interpolation.linear, some [0], some (ReadOutputs.rotations [⟨0, 0, 0, 1⟩])⟩]
      = some [] :=
  ⟨(static_joint_empty_keys_spec 0 _).1 (by decide),
   (static_joint_empty_keys_spec 0 _).2 (by decide)⟩

-- ------------------------------------------------------------------
-- C1: the animation time range
-- ------------------------------------------------------------------

/-- Fold step of `determine_anim_time_range` (char_anim.rs line 124):
`|(min, max), time| (min.min(time), max.max(time))`. -/
def min_max_fold (mm : Int × Int) (time : Int) : Int × Int :=
  (min mm.1 time, max mm.2 time)

/-- Key times of all bones (char_anim.rs lines 120-123): rotation key
times chained with translation key times, over all bones. -/
def all_key_times (bones : List rfa.Bone) : List Int :=
  bones.flatMap (fun b =>
    b.rotation_keys.map rfa.RotationKey.time ++
      b.translation_keys.map rfa.TranslationKey.time)

/-- Model of `determine_anim_time_range` (char_anim.rs lines 119-125):
fold of `min_max_fold` over all key times, starting from `(0, 0)`. -/
def determine_anim_time_range (bones : List rfa.Bone) : Int × Int :=
  (all_key_times bones).foldl min_max_fold (0, 0)

/-- Concrete input used for claim C1: a single bone whose two rotation
keys span ticks 100 to 5000. -/
def c1_bones : List rfa.Bone :=
  [{ weight := 1,
     rotation_keys := [⟨100, ⟨0, 0, 0, 0⟩, 0, 0⟩, ⟨5000, ⟨0, 0, 0, 0⟩, 0, 0⟩],
     translation_keys := [] }]

theorem foldl_min_max_fst :
    ∀ (ts : List Int) (mm : Int × Int), (ts.foldl min_max_fold mm).1 = ts.foldl min mm.1
  | [], _ => rfl
  | t :: ts, mm => by
    rw [List.foldl_cons, List.foldl_cons]
    exact foldl_min_max_fst ts (min_max_fold mm t)

theorem foldl_min_max_snd :
    ∀ (ts : List Int) (mm : Int × Int), (ts.foldl min_max_fold mm).2 = ts.foldl max mm.2
  | [], _ => rfl
  | t :: ts, mm => by
    rw [List.foldl_cons, List.foldl_cons]
    exact foldl_min_max_snd ts (min_max_fold mm t)

theorem foldl_min_le_init : ∀ (ts : List Int) (a : Int), ts.foldl min a ≤ a
  | [], a => le_refl a
  | t :: ts, a => by
    rw [List.foldl_cons]
    exact le_trans (foldl_min_le_init ts (min a t)) (min_le_left a t)

theorem foldl_max_init_le : ∀ (ts : List Int) (a : Int), a ≤ ts.foldl max a
  | [], a => le_refl a
  | t :: ts, a => by
    rw [List.foldl_cons]
    exact le_trans (le_max_left a t) (foldl_max_init_le ts (max a t))

theorem foldl_min_le_mem : ∀ (ts : List Int) (a t : Int), t ∈ ts → ts.foldl min a ≤ t
  | [], _, _, h => absurd h (List.not_mem_nil _)
  | u :: ts, a, t, h => by
    rw [List.foldl_cons]
    rcases List.mem_cons.mp h with h1 | h2
    · subst h1
      exact le_trans (foldl_min_le_init ts (min a t)) (min_le_right a t)
    · exact foldl_min_le_mem ts (min a u) t h2

theorem foldl_max_mem_le : ∀ (ts : List Int) (a t : Int), t ∈ ts → t ≤ ts.foldl max a
  | [], _, _, h => absurd h (List.not_mem_nil _)
  | u :: ts, a, t, h => by
    rw [List.foldl_cons]
    rcases List.mem_cons.mp h with h1 | h2
    · subst h1
      exact le_trans (le_max_right a t) (foldl_max_init_le ts (max a t))
    · exact foldl_max_mem_le ts (max a u) t h2

theorem foldl_min_eq_init_or_mem :
    ∀ (ts : List Int) (a : Int), ts.foldl min a = a ∨ ts.foldl min a ∈ ts
  | [], a => Or.inl rfl
  | t :: ts, a => by
    rw [List.foldl_cons]
    rcases foldl_min_eq_init_or_mem ts (min a t) with h | h
    · rw [h]
      rcases min_choice a t with h1 | h1
      · exact Or.inl h1
      · right
        rw [h1]
        exact List.mem_cons_self t ts
    · exact Or.inr (List.mem_cons_of_mem t h)

theorem foldl_max_eq_init_or_mem :
    ∀ (ts : List Int) (a : Int), ts.foldl max a = a ∨ ts.foldl max a ∈ ts
  | [], a => Or.inl rfl
  | t :: ts, a => by
    rw [List.foldl_cons]
    rcases foldl_max_eq_init_or_mem ts (max a t) with h | h
    · rw [h]
      rcases max_choice a t with h1 | h1
      · exact Or.inl h1
      · right
        rw [h1]
        exact List.mem_cons_self t ts
    · exact Or.inr (List.mem_cons_of_mem t h)

/-- C1 is refuted: on a bone list whose key times all lie in
`[100, 5000]` with both endpoints attained, `determine_anim_time_range`
returns `(0, 5000)`, not `(100, 5000)`: the fold starts from `(0, 0)`, so
the start time can never exceed 0. -/
theorem determine_anim_time_range_counterexample :
    determine_anim_time_range c1_bones = (0, 5000) ∧
    determine_anim_time_range c1_bones ≠ (100, 5000) ∧
    (∀ t ∈ all_key_times c1_bones, 100 ≤ t ∧ t ≤ 5000) ∧
    100 ∈ all_key_times c1_bones ∧
    5000 ∈ all_key_times c1_bones := by
  refine ⟨?_, ?_, ?_, ?_, ?_⟩ <;> decide

/-- C1 (amended): `determine_anim_time_range` returns the minimum and the
maximum of 0 together with all key times of all bones: each bound is 0 or
an attained key time, the start is at most 0, the end at least 0, and
every key time lies between them; with no keys at all the result is
`(0, 0)` (a consequence of the first two conjuncts), but a key range
`[100, 5000]` yields start 0, not 100. -/
theorem determine_anim_time_range_spec (bones : List rfa.Bone) :
    (determine_anim_time_range bones).1 ≤ 0 ∧
    0 ≤ (determine_anim_time_range bones).2 ∧
    (∀ t ∈ all_key_times bones,
      (determine_anim_time_range bones).1 ≤ t ∧
        t ≤ (determine_anim_time_range bones).2) ∧
    ((determine_anim_time_range bones).1 = 0 ∨
      (determine_anim_time_range bones).1 ∈ all_key_times bones) ∧
    ((determine_anim_time_range bones).2 = 0 ∨
      (determine_anim_time_range bones).2 ∈ all_key_times bones) := by
  have h1 : (determine_anim_time_range bones).1 = (all_key_times bones).foldl min 0 :=
    foldl_min_max_fst (all_key_times bones) (0, 0)
  have h2 : (determine_anim_time_range bones).2 = (all_key_times bones).foldl max 0 :=
    foldl_min_max_snd (all_key_times bones) (0, 0)
  rw [h1, h2]
  refine ⟨foldl_min_le_init _ 0, foldl_max_init_le _ 0, ?_, ?_, ?_⟩
  · intro t ht
    exact ⟨foldl_min_le_mem _ 0 t ht, foldl_max_mem_le _ 0 t ht⟩
  · exact foldl_min_eq_init_or_mem _ 0
  · exact foldl_max_eq_init_or_mem _ 0

/-- Witness for C1 (amended) on the concrete bone list. -/
theorem determine_anim_time_range_spec_witness :
    (determine_anim_time_range c1_bones).1 ≤ 100 ∧
    100 ≤ (determine_anim_time_range c1_bones).2 :=
  (determine_anim_time_range_spec c1_bones).2.2.1 100 (by decide)

-- ------------------------------------------------------------------
-- Skeleton / bone-hierarchy resolver
-- ------------------------------------------------------------------

/-- Model of a gltf node as the resolver uses it: scene index, optional
name, and the scene indices of its direct children. -/
structure Node where
  index : Nat
  name : Option String
  children : List Nat
  deriving DecidableEq, Inhabited

/-- Model of an inverse bind matrix through the only lens `convert_bone`
applies to it, glam `to_scale_rotation_translation`: the decomposed scale,
rotation quaternion, and translation. -/
structure Mat4SRT where
  scale : Vec3
  rotation : Quat
  translation : Vec3
  deriving DecidableEq, Inhabited

/-- Model of a gltf skin: the ordered joint list, and the result of
`read_inverse_bind_matrices` (`none` models a reader failure, which the
source escalates to a panic via `expect`). -/
structure Skin where
  joints : List Node
  inverse_bind_matrices : Option (List Mat4SRT)
  deriving DecidableEq, Inhabited

namespace v3mc

/-- Modelled from the spec: the fixed maximum bone count of the target
mesh format, the constant `v3mc::MAX_BONES` of the `v3mc` module, which is
not among the sources. -/
def MAX_BONES : Nat := 50

/-- Model of `v3mc::Bone`. -/
structure Bone where
  name : String
  base_rotation : Quat
  base_translation : Vec3
  parent_index : Int
  deriving DecidableEq, Inhabited

end v3mc

/-- Error kinds of the resolver (section 7 of the spec): the source
reports them as `std::io::Error` values with descriptive messages; only
the kind matters here. -/
inductive ConvError where
  | capacityExceeded
  | dataMismatch
  deriving DecidableEq

/-- Recursion of `get_joint_index` (char_anim.rs lines 165-171):
`enumerate().filter(|(_i, n)| node.index() == n.index()).map(|(i, _n)| i)
.next()`, with the running enumeration index made explicit; `none` models
the `expect("joint not found")` panic. -/
def find_joint_index_from (target : Nat) : Nat → List Node → Option Nat
  | _, [] => none
  | i, n :: rest =>
    if target == n.index then some i else find_joint_index_from target (i + 1) rest

/-- Model of `get_joint_index` (char_anim.rs lines 165-171). -/
def get_joint_index (node : Node) (skin : Skin) : Option Nat :=
  find_joint_index_from node.index 0 skin.joints

/-- Model of `get_joint_parent` (char_anim.rs lines 173-175): the first
joint of the skin whose direct children contain the node. -/
def get_joint_parent (node : Node) (skin : Skin) : Option Node :=
  skin.joints.find? (fun n => n.children.any (fun c => c == node.index))

/-- Condition of the scale assertion in `convert_bone` (char_anim.rs line
185): `(gltf_scale - glam::Vec3::ONE).max_element() < 0.01f32`. -/
def scale_is_ok (scale : Vec3) : Prop :=
  max (scale.x - 1) (max (scale.y - 1) (scale.z - 1)) < 1 / 100

instance : DecidablePred scale_is_ok := fun s => by
  unfold scale_is_ok
  infer_instance

/-- Model of `convert_bone` (char_anim.rs lines 177-189).  `none` models a
panic: either `get_joint_index`'s `expect` while resolving the parent, or
the scale assertion failing. -/
def convert_bone (n : Node) (inverse_bind_matrix : Mat4SRT) (index : Nat) (skin : Skin) :
    Option v3mc.Bone :=
  let name := n.name.getD ("bone_" ++ toString index)
  let parent_index_opt : Option Int :=
    match get_joint_parent n skin with
    | some pn => (get_joint_index pn skin).map Int.ofNat
    | none => some (-1)
  match parent_index_opt with
  | none => none
  | some parent_index =>
    if scale_is_ok inverse_bind_matrix.scale then
      some { name := name,
             base_rotation := gltf_to_rf_quat (quat_to_array inverse_bind_matrix.rotation),
             base_translation := gltf_to_rf_vec inverse_bind_matrix.translation,
             parent_index := parent_index }
    else none

/-- Loop of `convert_bones` (char_anim.rs lines 210-213), with the running
enumeration index made explicit: one bone per joint, aborting (`none`)
when any `convert_bone` panics. -/
def convert_bones_from (skin : Skin) (ibms : List Mat4SRT) :
    Nat → List Node → Option (List v3mc.Bone)
  | _, [] => some []
  | i, n :: rest =>
    match convert_bone n (ibms.getD i default) i skin,
        convert_bones_from skin ibms (i + 1) rest with
    | some b, some bs => some (b :: bs)
    | _, _ => none

/-- Model of `convert_bones` (char_anim.rs lines 191-215).  The outer
`Option` models panics (`none`); the `Except` layer carries the two
recoverable error returns. -/
def convert_bones (skin : Skin) : Option (Except ConvError (List v3mc.Bone)) :=
  let num_joints := skin.joints.length
  if num_joints > v3mc.MAX_BONES then
    some (Except.error ConvError.capacityExceeded)
  else
    match skin.inverse_bind_matrices with
    | none => none
    | some ibms =>
      if ibms.length ≠ num_joints then
        some (Except.error ConvError.dataMismatch)
      else
        (convert_bones_from skin ibms 0 skin.joints).map Except.ok

-- ------------------------------------------------------------------
-- C3: the scale assertion is one-sided
-- ------------------------------------------------------------------

/-- C3 is refuted: a joint whose inverse bind matrix decomposes to scale
(1/2, 1/2, 1/2) deviates from 1 by 1/2 > 0.01 on every axis, yet the
assertion passes (it only checks `max (scale - 1) < 0.01`, which holds for
scale below 1) and a bone is produced instead of aborting. -/
theorem convert_bone_scale_counterexample :
    convert_bone ⟨0, some "root", []⟩ ⟨⟨1/2, 1/2, 1/2⟩, ⟨0, 0, 0, 1⟩, ⟨0, 0, 0⟩⟩ 0
        ⟨[⟨0, some "root", []⟩], some [⟨⟨1/2, 1/2, 1/2⟩, ⟨0, 0, 0, 1⟩, ⟨0, 0, 0⟩⟩]⟩ =
      some ⟨"root", gltf_to_rf_quat ⟨0, 0, 0, 1⟩, gltf_to_rf_vec ⟨0, 0, 0⟩, -1⟩ ∧
    (1 : ℚ) - 1/2 > 1/100 := by
  constructor
  · with_unfolding_all decide
  · with_unfolding_all decide

/-- C3 (amended): for a joint whose parent resolution succeeds (here: a
root joint), `convert_bone` aborts via the assertion iff some axis of the
decomposed scale exceeds 1 by at least 0.01; a deviation below 1 of any
size never trips the assertion, and a scale within 0.01 of 1 on every
axis always passes. -/
theorem convert_bone_scale_spec (n : Node) (skin : Skin) (i : Nat) (ibm : Mat4SRT)
    (hp : get_joint_parent n skin = none) :
    convert_bone n ibm i skin = none ↔
      (1/100 : ℚ) ≤ ibm.scale.x - 1 ∨ (1/100 : ℚ) ≤ ibm.scale.y - 1 ∨
        (1/100 : ℚ) ≤ ibm.scale.z - 1 := by
  simp only [convert_bone, hp]
  by_cases h : scale_is_ok ibm.scale
  · rw [if_pos h]
    unfold scale_is_ok at h
    simp only [max_lt_iff] at h
    constructor
    · intro hcontra
      exact absurd hcontra (Option.some_ne_none _)
    · intro hcontra
      rcases hcontra with h1 | h1 | h1 <;> linarith [h.1, h.2.1, h.2.2]
  · rw [if_neg h]
    unfold scale_is_ok at h
    rw [not_lt] at h
    simp only [le_max_iff] at h
    exact ⟨fun _ => h, fun _ => rfl⟩

/-- Witness for C3 (amended): a root joint with decomposed scale
(2, 1, 1) trips the assertion. -/
theorem convert_bone_scale_spec_witness :
    convert_bone ⟨7, none, []⟩ ⟨⟨2, 1, 1⟩, ⟨0, 0, 0, 1⟩, ⟨0, 0, 0⟩⟩ 0 ⟨[], none⟩ = none :=
  (convert_bone_scale_spec ⟨7, none, []⟩ ⟨[], none⟩ 0 _ rfl).mpr
    (Or.inl (by with_unfolding_all decide))

-- ------------------------------------------------------------------
-- C5: capacity and matrix-count checks fail the whole conversion
-- ------------------------------------------------------------------

/-- C5: `convert_bones` returns `CapacityExceeded` whenever the joint
count exceeds `MAX_BONES`, and `DataMismatch` whenever the inverse bind
matrices are read but their count differs from the joint count; in both
cases the produced value carries no bone list at all. -/
theorem convert_bones_error_spec (skin : Skin) :
    (skin.joints.length > v3mc.MAX_BONES →
      convert_bones skin = some (Except.error ConvError.capacityExceeded)) ∧
    (∀ ibms, skin.joints.length ≤ v3mc.MAX_BONES →
      skin.inverse_bind_matrices = some ibms →
      ibms.length ≠ skin.joints.length →
      convert_bones skin = some (Except.error ConvError.dataMismatch)) := by
  constructor
  · intro h
    unfold convert_bones
    rw [if_pos h]
  · intro ibms hle hibms hne
    simp only [convert_bones, hibms]
    rw [if_neg (by omega), if_pos hne]

/-- Witness for C5: a skin with 51 joints exceeds the 50-bone limit, and a
one-joint skin with an empty matrix stream is a count mismatch. -/
theorem convert_bones_error_spec_witness :
    convert_bones ⟨List.replicate 51 ⟨0, none, []⟩, none⟩ =
      some (Except.error ConvError.capacityExceeded) ∧
    convert_bones ⟨[⟨0, none, []⟩], some []⟩ =
      some (Except.error ConvError.dataMismatch) :=
  ⟨(convert_bones_error_spec _).1 (by decide),
   (convert_bones_error_spec _).2 [] (by decide) rfl (by decide)⟩

-- ------------------------------------------------------------------
-- C6: parent resolution
-- ------------------------------------------------------------------

/-- Concrete two-joint skin used for claim C6: joint 0 is the root, joint
1 its child, both with unit decomposed scale. -/
def c6_skin : Skin :=
  ⟨[⟨0, none, [1]⟩, ⟨1, none, []⟩],
   some [⟨⟨1, 1, 1⟩, ⟨0, 0, 0, 1⟩, ⟨0, 0, 0⟩⟩, ⟨⟨1, 1, 1⟩, ⟨0, 0, 0, 1⟩, ⟨0, 0, 0⟩⟩]⟩

/-- Bones produced for `c6_skin`. -/
def c6_bones : List v3mc.Bone :=
  [⟨"bone_0", gltf_to_rf_quat (quat_to_array ⟨0, 0, 0, 1⟩), gltf_to_rf_vec ⟨0, 0, 0⟩, -1⟩,
   ⟨"bone_1", gltf_to_rf_quat (quat_to_array ⟨0, 0, 0, 1⟩), gltf_to_rf_vec ⟨0, 0, 0⟩, 0⟩]

theorem find_joint_index_from_nodup :
    ∀ (js : List Node) (p : Fin js.length) (i0 : Nat),
      (js.map Node.index).Nodup →
      find_joint_index_from (js.get p).index i0 js = some (i0 + p.val)
  | [], p, _, _ => absurd p.isLt (by simp)
  | n :: rest, ⟨0, h0⟩, i0, hnodup => by
    simp [find_joint_index_from]
  | n :: rest, ⟨q + 1, hq⟩, i0, hnodup => by
    have hq2 : q < rest.length := by simpa using hq
    rw [List.map_cons, List.nodup_cons] at hnodup
    have hget : (n :: rest).get ⟨q + 1, hq⟩ = rest.get ⟨q, hq2⟩ := rfl
    have hmem : (rest.get ⟨q, hq2⟩).index ∈ rest.map Node.index :=
      List.mem_map_of_mem _ (List.get_mem rest q hq2)
    have hne : ((rest.get ⟨q, hq2⟩).index == n.index) = false := by
      rw [beq_eq_false_iff_ne]
      intro hcontra
      exact hnodup.1 (hcontra ▸ hmem)
    have h2 := find_joint_index_from_nodup rest ⟨q, hq2⟩ (i0 + 1) hnodup.2
    dsimp only at h2 ⊢
    rw [hget, find_joint_index_from, hne, if_neg (by simp), h2]
    congr 1
    omega

theorem get_joint_index_get (skin : Skin) (hnodup : (skin.joints.map Node.index).Nodup)
    (p : Fin skin.joints.length) :
    get_joint_index (skin.joints.get p) skin = some p.val := by
  have := find_joint_index_from_nodup skin.joints p 0 hnodup
  simpa [get_joint_index] using this

theorem get_joint_parent_eq_none (n : Node) (skin : Skin)
    (h : ∀ p ∈ skin.joints, n.index ∉ p.children) :
    get_joint_parent n skin = none := by
  rw [get_joint_parent, List.find?_eq_none]
  intro x hx hcontra
  rcases List.any_eq_true.mp hcontra with ⟨c, hc_mem, hc_eq⟩
  exact h x hx ((eq_of_beq hc_eq) ▸ hc_mem)

theorem get_joint_parent_eq_get (skin : Skin) (i p : Fin skin.joints.length)
    (hnodup : (skin.joints.map Node.index).Nodup)
    (hmem : (skin.joints.get i).index ∈ (skin.joints.get p).children)
    (huniq : ∀ q : Fin skin.joints.length,
      (skin.joints.get i).index ∈ (skin.joints.get q).children → q = p) :
    get_joint_parent (skin.joints.get i) skin = some (skin.joints.get p) := by
  have hsome : (skin.joints.find?
      (fun m => m.children.any (fun c => c == (skin.joints.get i).index))).isSome := by
    rw [List.find?_isSome]
    refine ⟨skin.joints.get p, List.get_mem _ _ _, ?_⟩
    exact List.any_eq_true.mpr ⟨_, hmem, beq_self_eq_true _⟩
  obtain ⟨a, ha⟩ := Option.isSome_iff_exists.mp hsome
  have hpa := List.find?_some ha
  have hamem := List.mem_of_find?_eq_some ha
  obtain ⟨q, hq⟩ := List.get_of_mem hamem
  have hqp : q = p := by
    apply huniq
    rw [hq]
    rcases List.any_eq_true.mp hpa with ⟨c, hc_mem, hc_eq⟩
    exact (eq_of_beq hc_eq) ▸ hc_mem
  rw [get_joint_parent, ha, ← hq, hqp]

theorem convert_bone_parent_root (n : Node) (ibm : Mat4SRT) (i : Nat) (skin : Skin)
    (b : v3mc.Bone) (hp : get_joint_parent n skin = none)
    (h : convert_bone n ibm i skin = some b) : b.parent_index = -1 := by
  simp only [convert_bone, hp] at h
  by_cases hs : scale_is_ok ibm.scale
  · rw [if_pos hs] at h
    cases h
    rfl
  · rw [if_neg hs] at h
    cases h

theorem convert_bone_parent_some (n : Node) (ibm : Mat4SRT) (i : Nat) (skin : Skin)
    (b : v3mc.Bone) (pn : Node) (p : Nat)
    (hp : get_joint_parent n skin = some pn)
    (hidx : get_joint_index pn skin = some p)
    (h : convert_bone n ibm i skin = some b) : b.parent_index = Int.ofNat p := by
  simp only [convert_bone, hp, hidx, Option.map_some'] at h
  by_cases hs : scale_is_ok ibm.scale
  · rw [if_pos hs] at h
    cases h
    rfl
  · rw [if_neg hs] at h
    cases h

theorem convert_bones_from_spec (skin : Skin) (ibms : List Mat4SRT) :
    ∀ (js : List Node) (i0 : Nat) (bs : List v3mc.Bone),
      convert_bones_from skin ibms i0 js = some bs →
      bs.length = js.length ∧
      ∀ k, k < js.length →
        convert_bone (js.getD k default) (ibms.getD (i0 + k) default) (i0 + k) skin =
          some (bs.getD k default)
  | [], i0, bs, h => by
    cases h
    exact ⟨rfl, fun k hk => absurd hk (by simp)⟩
  | n :: rest, i0, bs, h => by
    simp only [convert_bones_from] at h
    rcases hcb : convert_bone n (ibms.getD i0 default) i0 skin with _ | b
    · rw [hcb] at h
      cases h
    rcases hrest : convert_bones_from skin ibms (i0 + 1) rest with _ | bs1
    · rw [hcb, hrest] at h
      cases h
    rw [hcb, hrest] at h
    cases h
    obtain ⟨hlen, hpt⟩ := convert_bones_from_spec skin ibms rest (i0 + 1) bs1 hrest
    refine ⟨by simp [hlen], ?_⟩
    intro k hk
    cases k with
    | zero => simpa using hcb
    | succ k2 =>
      have hk2 : k2 < rest.length := by simpa using hk
      have harith : i0 + (k2 + 1) = i0 + 1 + k2 := by omega
      rw [harith, List.getD_cons_succ, List.getD_cons_succ]
      exact hpt k2 hk2

/-- C6: over a skin with pairwise-distinct joint indices, no self-children,
joint 0 the sole root (no joint lists it as a child) and every other joint
having exactly one parent among the skin joints, a successful
`convert_bones` yields one bone per joint where bone 0 has
`parent_index = -1`, every other bone stores the position (within the
skin joint order) of a joint whose children contain that bone's joint, an
in-range index different from its own, and exactly one bone of the list
has `parent_index = -1`. -/
theorem convert_bones_parent_spec
    (skin : Skin) (bones : List v3mc.Bone)
    (hconv : convert_bones skin = some (Except.ok bones))
    (hnodup : (skin.joints.map Node.index).Nodup)
    (hnoself : ∀ n ∈ skin.joints, n.index ∉ n.children)
    (hN : 0 < skin.joints.length)
    (hroot : ∀ p ∈ skin.joints, (skin.joints.getD 0 default).index ∉ p.children)
    (hparent : ∀ i : Fin skin.joints.length, i.val ≠ 0 →
      ∃ p : Fin skin.joints.length,
        (skin.joints.get i).index ∈ (skin.joints.get p).children ∧
        ∀ q : Fin skin.joints.length,
          (skin.joints.get i).index ∈ (skin.joints.get q).children → q = p) :
    bones.length = skin.joints.length ∧
    (bones.getD 0 default).parent_index = -1 ∧
    (∀ i : Fin skin.joints.length, i.val ≠ 0 →
      ∃ p : Fin skin.joints.length,
        (bones.getD i.val default).parent_index = (p.val : Int) ∧
        p.val ≠ i.val ∧
        (skin.joints.get i).index ∈ (skin.joints.get p).children) ∧
    (bones.filter (fun b => b.parent_index == -1)).length = 1 := by
  simp only [convert_bones] at hconv
  by_cases hcap : skin.joints.length > v3mc.MAX_BONES
  · rw [if_pos hcap] at hconv
    simp at hconv
  rw [if_neg hcap] at hconv
  rcases hibm : skin.inverse_bind_matrices with _ | ibms
  · rw [hibm] at hconv
    simp at hconv
  simp only [hibm] at hconv
  by_cases hmlen : ibms.length ≠ skin.joints.length
  · rw [if_pos hmlen] at hconv
    simp at hconv
  rw [if_neg hmlen] at hconv
  rcases hfrom : convert_bones_from skin ibms 0 skin.joints with _ | bs
  · rw [hfrom] at hconv
    simp at hconv
  rw [hfrom] at hconv
  simp only [Option.map_some', Option.some.injEq] at hconv
  have hbs : bs = bones := by
    injection hconv
  subst hbs
  obtain ⟨hlenB, hpt⟩ := convert_bones_from_spec skin ibms skin.joints 0 bs hfrom
  have hroot_bone : (bs.getD 0 default).parent_index = -1 := by
    have h0 := hpt 0 hN
    simp only [Nat.add_zero] at h0
    exact convert_bone_parent_root _ _ _ _ _ (get_joint_parent_eq_none _ _ hroot) h0
  have hnonroot : ∀ i : Fin skin.joints.length, i.val ≠ 0 →
      ∃ p : Fin skin.joints.length,
        (bs.getD i.val default).parent_index = (p.val : Int) ∧ p.val ≠ i.val ∧
        (skin.joints.get i).index ∈ (skin.joints.get p).children := by
    intro i hi
    obtain ⟨p, hpmem, huniq⟩ := hparent i hi
    have hgp : get_joint_parent (skin.joints.get i) skin = some (skin.joints.get p) :=
      get_joint_parent_eq_get skin i p hnodup hpmem huniq
    have hgi : get_joint_index (skin.joints.get p) skin = some p.val :=
      get_joint_index_get skin hnodup p
    have hk := hpt i.val i.isLt
    simp only [Nat.zero_add] at hk
    have hgetD : skin.joints.getD i.val default = skin.joints.get i := by
      rw [List.getD_eq_get _ _ i.isLt]
    rw [hgetD] at hk
    have hpar := convert_bone_parent_some _ _ _ _ _ _ _ hgp hgi hk
    refine ⟨p, hpar.trans rfl, ?_, hpmem⟩
    intro hpeq
    have hpi : p = i := Fin.ext hpeq
    rw [hpi] at hpmem
    exact hnoself (skin.joints.get i) (List.get_mem _ _ _) hpmem
  refine ⟨hlenB, hroot_bone, hnonroot, ?_⟩
  rcases hbs_shape : bs with _ | ⟨b0, rest⟩
  · rw [hbs_shape] at hlenB
    simp at hlenB
    omega
  have hb0 : b0.parent_index = -1 := by
    have h1 := hroot_bone
    rw [hbs_shape] at h1
    simpa using h1
  have hrest_ne : ∀ b ∈ rest, ¬ (b.parent_index == -1) = true := by
    intro b hb
    obtain ⟨j, hj⟩ := List.get_of_mem hb
    have hjlt : j.val + 1 < skin.joints.length := by
      rw [← hlenB, hbs_shape]
      simpa using j.isLt
    obtain ⟨p, hp_eq, _, _⟩ := hnonroot ⟨j.val + 1, hjlt⟩ (by simp)
    have hj1 : bs.getD (j.val + 1) default = b := by
      rw [hbs_shape, List.getD_cons_succ, List.getD_eq_get _ _ j.isLt, hj]
    rw [hj1] at hp_eq
    intro hcontra
    rw [beq_iff_eq] at hcontra
    rw [hcontra] at hp_eq
    omega
  rw [List.filter_cons_of_pos (by simp [hb0]),
    List.filter_eq_nil_iff.mpr hrest_ne]
  rfl

/-- Witness for C6 on the concrete two-joint skin. -/
theorem convert_bones_parent_spec_witness :
    c6_bones.length = c6_skin.joints.length ∧
    (c6_bones.getD 0 default).parent_index = -1 ∧
    (c6_bones.filter (fun b => b.parent_index == -1)).length = 1 := by
  have h := convert_bones_parent_spec c6_skin c6_bones (by with_unfolding_all rfl)
    (by decide) (by decide) (by decide) (by decide) (by decide)
  exact ⟨h.1, h.2.1, h.2.2.2⟩
